import Mathlib

/-
Verification development for the assistant core in
assistant_core/llm_service.py: schedule store, intent routing,
notification dispatch, unknown-face handling and the conversation
session loop, shallowly embedded in Lean.

External capabilities (STT, TTS, the telegram bot, dateparser) are
modelled as explicit inputs: listen results arrive as a list of events,
datetime parsing is a function parameter, and the telegram channel is a
boolean presence flag plus an Except-valued outcome.
-/

namespace Assistant

/- ===== Intent classification (parse_intent_simple) ===== -/

inductive Intent where
  | add_schedule
  | show_schedule
  | chat
  deriving DecidableEq, Repr

/-- Python substring test at the head: does the needle occur as a prefix
of the haystack? -/
def matchHere : List Char → List Char → Bool
  | [], _ => true
  | _ :: _, [] => false
  | a :: as, b :: bs => a == b && matchHere as bs

/-- Python `needle in hay` on character lists. -/
def containsSub (needle : List Char) : List Char → Bool
  | [] => needle.isEmpty
  | c :: rest => matchHere needle (c :: rest) || containsSub needle rest

/-- Python `needle in hay` on strings. -/
def pyIn (needle hay : String) : Bool :=
  containsSub needle.toList hay.toList

/-- Python `s.lower()` (inputs here are ASCII). -/
def pyLower (s : String) : String :=
  ⟨s.toList.map Char.toLower⟩

/-- llm_service.parse_intent_simple: `t = (text or "").lower()` followed by
the two substring cascades; the Option input models a possibly-None text. -/
def parse_intent_simple (text : Option String) : Intent :=
  let t := pyLower (text.getD "")
  if pyIn "remind me" t || pyIn "schedule" t || pyIn "add" t then
    Intent.add_schedule
  else if pyIn "show schedule" t || pyIn "what\x27s my schedule" t || pyIn "my schedule" t then
    Intent.show_schedule
  else
    Intent.chat

/-- Modelled from the spec: the fixed ordered rule set of section 4.6,
first match wins, case-insensitive substring test; used only to compare
against parse_intent_simple. -/
def intentRules : List (List String × Intent) :=
  [(["remind me", "schedule", "add"], Intent.add_schedule),
   (["show schedule", "what\x27s my schedule", "my schedule"], Intent.show_schedule)]

/-- Modelled from the spec: first-match-wins classification over
intentRules, defaulting to chat. -/
def classify_spec (text : String) : Intent :=
  let t := pyLower text
  match intentRules.find? (fun rule => rule.1.any (fun p => pyIn p t)) with
  | some rule => rule.2
  | none => Intent.chat

/-- llm_service.reply_with_llm_sim: echo fallback. -/
def reply_with_llm_sim (user_text : String) (user_id : String) : String :=
  "I heard: " ++ user_text

/- ===== Schedule store (sqlite table `schedules`) ===== -/

structure ScheduleRecord where
  id : Nat
  user_id : String
  title : String
  notes : String
  when_ts : Int
  notified : Bool
  deriving DecidableEq, Repr

/-- The schedules table plus the AUTOINCREMENT counter. -/
structure Store where
  rows : List ScheduleRecord
  nextId : Nat
  deriving DecidableEq, Repr

/-- llm_service.add_schedule: INSERT with notified defaulting to 0,
returning the fresh rowid. -/
def add_schedule (db : Store) (user_id title notes : String) (when_ts : Int) :
    Store × Nat :=
  let rid := db.nextId
  ({ rows := db.rows ++
       [{ id := rid, user_id := user_id, title := title, notes := notes,
          when_ts := when_ts, notified := false }],
     nextId := rid + 1 }, rid)

/-- llm_service.mark_notified: UPDATE schedules SET notified = 1 WHERE id = ?. -/
def mark_notified (db : Store) (sid : Nat) : Store :=
  { db with
    rows := db.rows.map (fun r => if r.id = sid then { r with notified := true } else r) }

/-- n repeated mark_notified calls on the same id. -/
def markTimes (db : Store) (sid : Nat) : Nat → Store
  | 0 => db
  | n + 1 => mark_notified (markTimes db sid n) sid

/-- llm_service.get_user_upcoming: SELECT title, notes, when_ts WHERE
user_id = ? ORDER BY when_ts LIMIT ?; note there is no filter on when_ts. -/
def get_user_upcoming (db : Store) (user_id : String) (limit : Nat := 10) :
    List (String × String × Int) :=
  ((((db.rows.filter (fun r => r.user_id == user_id)).insertionSort
      (fun a b => a.when_ts ≤ b.when_ts)).map
      (fun r => (r.title, r.notes, r.when_ts))).take limit)

/-- llm_service.poll_pending_schedules: the ids selected by
`SELECT id FROM schedules WHERE when_ts <= ? AND notified = 0`, i.e. the
ids the sweeper hands to the scheduler. -/
def poll_pending_schedules (db : Store) (now_ts : Int) : List Nat :=
  (db.rows.filter (fun r => decide (r.when_ts ≤ now_ts) && !r.notified)).map
    (fun r => r.id)

/- ===== Notification dispatcher (trigger_notification) ===== -/

inductive NAct where
  | spokeReminder (user title notes : String) (ts : Int)
  | alerted (user title notes : String) (ts : Int)
  deriving DecidableEq, Repr

/-- llm_service.trigger_notification: load the row by id; absent row is a
no-op; otherwise speak the reminder, attempt the external alert when the
bot is configured (failure is caught), then mark_notified. The code never
consults the notified flag before speaking. -/
def trigger_notification (hasBot : Bool) (db : Store) (sid : Nat) :
    Store × List NAct :=
  match db.rows.find? (fun r => r.id == sid) with
  | none => (db, [])
  | some r =>
      (mark_notified db sid,
       NAct.spokeReminder r.user_id r.title r.notes r.when_ts ::
         (if hasBot then [NAct.alerted r.user_id r.title r.notes r.when_ts] else []))

/- ===== Unknown-face handling ===== -/

def alertSuccessSpeech : String :=
  "I detected someone I don\x27t recognize — the owner has been notified."

def alertNotSentSpeech : String :=
  "I detected an unknown person but couldn\x27t notify the owner."

def alertErrorSpeech : String :=
  "Failed to send the unknown-person photo due to an error."

/-- llm_service.send_photo_to_owner: returns False when the bot is not
configured; otherwise forwards the telegram call, whose exceptions
propagate (modelled by the Except value). -/
def send_photo_to_owner (hasBot : Bool) (telegramOutcome : Except String Unit) :
    Except String Bool :=
  if hasBot then telegramOutcome.map (fun _ => true) else Except.ok false

/-- llm_service.on_unknown_face: the speech produced by the alerting step;
the try/except converts any exception into the error speech. -/
def on_unknown_face (hasBot : Bool) (telegramOutcome : Except String Unit) :
    String :=
  match send_photo_to_owner hasBot telegramOutcome with
  | Except.ok true => alertSuccessSpeech
  | Except.ok false => alertNotSentSpeech
  | Except.error _ => alertErrorSpeech

/- ===== Conversation session (conversation_session) ===== -/

/-- One listen result: the transcribed text and how long the listen call
took (seconds of wall clock consumed while blocked in it). -/
structure Ev where
  text : String
  dur : Nat
  deriving DecidableEq, Repr

/-- Observable actions of a session run. listenStart records whether the
listen is the slot-filling follow-up and the elapsed time (seconds since
session start) at which the call begins; speaks are instantaneous. -/
inductive Act where
  | greeted (user : String)
  | listenStart (isFollow : Bool) (t : Nat)
  | parseAttempt (s : String)
  | spokeClarify
  | spokeConfirm (title : String) (ts : Int)
  | spokeFail
  | created (id : Nat) (user title notes : String) (ts : Int)
  | armed (id : Nat) (ts : Int)
  | spokeNoUpcoming
  | spokeHeader
  | spokeItem (title : String) (ts : Int)
  | spokeChat (reply : String)
  | ended
  deriving DecidableEq, Repr

/-- The show_schedule branch of conversation_session: fetch the rows of the user (limit 10); speak the no-upcoming message if empty, else the header
followed by one item per row, title and time only, in order. -/
def handle_show (db : Store) (user : String) : List Act :=
  let rows := get_user_upcoming db user 10
  if rows.isEmpty then [Act.spokeNoUpcoming]
  else Act.spokeHeader :: rows.map (fun p => Act.spokeItem p.1 p.2.2)

/-- The loop of llm_service.conversation_session. `parse` stands for
extract_datetime_from_text (dateparser), `evs` feeds the successive
listen calls, `c` is the elapsed time since session start. The while
guard `time.time() - start_time < session_timeout` is checked only at
the top of each iteration; the slot-filling follow-up listen inside the
add_schedule branch is not guarded. An exhausted event list models the
session blocking forever inside a listen call. -/
def sessLoop (parse : String → Option Int) (timeout : Nat) (user : String) :
    List Ev → Nat → Store → List Act × Store
  | [], c, db =>
      if c < timeout then ([Act.listenStart false c], db) else ([Act.ended], db)
  | e :: rest, c, db =>
      if c < timeout then
        let c1 := c + e.dur
        if e.text = "" then ([Act.listenStart false c, Act.ended], db)
        else
          match parse_intent_simple (some e.text) with
          | Intent.add_schedule =>
              match parse e.text with
              | some ts =>
                  let p := add_schedule db user e.text "" ts
                  let k := sessLoop parse timeout user rest c1 p.1
                  (Act.listenStart false c :: Act.parseAttempt e.text ::
                     Act.created p.2 user e.text "" ts :: Act.armed p.2 ts ::
                     Act.spokeConfirm e.text ts :: k.1, k.2)
              | none =>
                  match rest with
                  | [] =>
                      ([Act.listenStart false c, Act.parseAttempt e.text,
                        Act.spokeClarify, Act.listenStart true c1], db)
                  | f :: rest2 =>
                      let c2 := c1 + f.dur
                      match parse f.text with
                      | some ts =>
                          let p := add_schedule db user e.text "" ts
                          let k := sessLoop parse timeout user rest2 c2 p.1
                          (Act.listenStart false c :: Act.parseAttempt e.text ::
                             Act.spokeClarify :: Act.listenStart true c1 ::
                             Act.parseAttempt f.text ::
                             Act.created p.2 user e.text "" ts :: Act.armed p.2 ts ::
                             Act.spokeConfirm e.text ts :: k.1, k.2)
                      | none =>
                          let k := sessLoop parse timeout user rest2 c2 db
                          (Act.listenStart false c :: Act.parseAttempt e.text ::
                             Act.spokeClarify :: Act.listenStart true c1 ::
                             Act.parseAttempt f.text :: Act.spokeFail :: k.1, k.2)
          | Intent.show_schedule =>
              let k := sessLoop parse timeout user rest c1 db
              (Act.listenStart false c :: handle_show db user ++ k.1, k.2)
          | Intent.chat =>
              let k := sessLoop parse timeout user rest c1 db
              (Act.listenStart false c ::
                 Act.spokeChat (reply_with_llm_sim e.text user) :: k.1, k.2)
      else ([Act.ended], db)

/-- llm_service.conversation_session: greeting then the loop, elapsed
time starting at zero, default timeout 90 seconds. -/
def conversation_session (parse : String → Option Int) (user : String)
    (evs : List Ev) (db : Store) (session_timeout : Nat := 90) :
    List Act × Store :=
  let k := sessLoop parse session_timeout user evs 0 db
  (Act.greeted user :: k.1, k.2)

/-- A datetime parser for concrete runs: recognizes one follow-up phrase. -/
def parseDemo (s : String) : Option Int :=
  if s = "9am tomorrow" then some 900 else none

/-- A datetime parser for concrete runs: never finds a datetime. -/
def parseNone (s : String) : Option Int := none

/-- An empty store whose autoincrement counter starts at 1, like a fresh
sqlite table. -/
def store0 : Store := ⟨[], 1⟩

/- ===== Helper lemmas ===== -/

theorem matchHere_iff (n : List Char) : ∀ h : List Char, matchHere n h = true ↔ n <+: h := by
  induction n with
  | nil => intro h; simp [matchHere]
  | cons a as ih =>
      intro h
      cases h with
      | nil => simp [matchHere]
      | cons b bs => simp [matchHere, ih, List.cons_prefix_cons, beq_iff_eq, And.comm]

theorem containsSub_iff (n : List Char) : ∀ h : List Char, containsSub n h = true ↔ n <:+: h := by
  intro h
  induction h with
  | nil => simp [containsSub, List.isEmpty_iff]
  | cons c t ih =>
      simp [containsSub, matchHere_iff, ih, List.infix_cons_iff]

theorem pyIn_trans (q p t : String) (hq : pyIn q p = true) (hp : pyIn p t = true) :
    pyIn q t = true := by
  rw [pyIn, containsSub_iff] at *
  exact hq.trans hp

/-- The second rule of parse_intent_simple can never fire: each of its
patterns contains the substring "schedule", which the first rule already
matches, so the classifier never returns show_schedule. -/
theorem show_schedule_unreachable (t : Option String) :
    (parse_intent_simple t == Intent.show_schedule) = false := by
  unfold parse_intent_simple
  by_cases h1 : (pyIn "remind me" (pyLower (t.getD "")) ||
      pyIn "schedule" (pyLower (t.getD "")) || pyIn "add" (pyLower (t.getD ""))) = true
  · simp [h1]
  · have hsched : pyIn "schedule" (pyLower (t.getD "")) = false := by
      rcases Bool.or_eq_false_iff.mp (Bool.eq_false_iff.mpr h1) with ⟨hl, _⟩
      exact (Bool.or_eq_false_iff.mp hl).2
    have h2 : (pyIn "show schedule" (pyLower (t.getD "")) ||
        pyIn "what\x27s my schedule" (pyLower (t.getD "")) ||
        pyIn "my schedule" (pyLower (t.getD ""))) = false := by
      rcases hs : pyIn "show schedule" (pyLower (t.getD "")) with _ | _
      · rcases hw : pyIn "what\x27s my schedule" (pyLower (t.getD "")) with _ | _
        · rcases hm : pyIn "my schedule" (pyLower (t.getD "")) with _ | _
          · simp [hs, hw, hm]
          · exact absurd (pyIn_trans "schedule" "my schedule" _ (by decide) hm)
              (by simp [hsched])
        · exact absurd (pyIn_trans "schedule" "what\x27s my schedule" _ (by decide) hw)
            (by simp [hsched])
      · exact absurd (pyIn_trans "schedule" "show schedule" _ (by decide) hs)
          (by simp [hsched])
    simp only [Bool.not_eq_true] at h1
    simp [h1, h2]

theorem mark_rows_idem (sid : Nat) (l : List ScheduleRecord) :
    (l.map (fun r => if r.id = sid then { r with notified := true } else r)).map
        (fun r => if r.id = sid then { r with notified := true } else r) =
      l.map (fun r => if r.id = sid then { r with notified := true } else r) := by
  rw [List.map_map]
  apply List.map_congr_left
  intro a _
  by_cases h : a.id = sid <;> simp [Function.comp, h]

theorem mark_rows_noop (sid : Nat) (l : List ScheduleRecord)
    (h : ∀ x ∈ l, x.id = sid → x.notified = true) :
    l.map (fun r => if r.id = sid then { r with notified := true } else r) = l := by
  induction l with
  | nil => rfl
  | cons r t ih =>
      have hr := h r (by simp)
      have ht : ∀ x ∈ t, x.id = sid → x.notified = true := fun x hx => h x (by simp [hx])
      simp only [List.map_cons, ih ht]
      by_cases hid : r.id = sid
      · have := hr hid
        cases r
        simp_all
      · simp [hid]

theorem mark_notified_noop (db : Store) (sid : Nat)
    (h : ∀ x ∈ db.rows, x.id = sid → x.notified = true) :
    mark_notified db sid = db := by
  cases db with
  | mk rows nid => exact congrArg (fun l => Store.mk l nid) (mark_rows_noop sid rows h)

/- ===== C1: dispatcher on an already-delivered record ===== -/

/-- C1 counterexample: trigger_notification on a record whose notified
flag is already set still speaks the reminder and attempts the external
alert; the claim says it performs no speak and no alert. The store is
unchanged only because marking an already-marked row is the identity. -/
theorem c1_counterexample :
    trigger_notification true ⟨[⟨1, "alice", "t", "n", 0, true⟩], 2⟩ 1 =
      (⟨[⟨1, "alice", "t", "n", 0, true⟩], 2⟩,
       [NAct.spokeReminder "alice" "t" "n" 0, NAct.alerted "alice" "t" "n" 0]) := by
  decide

/-- C1 amended: trigger_notification never consults the delivered flag.
On any id whose record is found it speaks the reminder and, when the bot
is configured, attempts the alert, then marks the record notified; only
an absent id is a no-op; the store is left unchanged when every row with
that id is already notified. -/
theorem c1_amended (hb : Bool) (db : Store) (sid : Nat) :
    (∀ r, db.rows.find? (fun x => x.id == sid) = some r →
      trigger_notification hb db sid =
        (mark_notified db sid,
         NAct.spokeReminder r.user_id r.title r.notes r.when_ts ::
           (if hb then [NAct.alerted r.user_id r.title r.notes r.when_ts] else [])))
  ∧ (db.rows.find? (fun x => x.id == sid) = none →
      trigger_notification hb db sid = (db, []))
  ∧ ((∀ x ∈ db.rows, x.id = sid → x.notified = true) →
      (trigger_notification hb db sid).1 = db) := by
  refine ⟨?_, ?_, ?_⟩
  · intro r hr
    simp [trigger_notification, hr]
  · intro hr
    simp [trigger_notification, hr]
  · intro hall
    unfold trigger_notification
    cases hf : db.rows.find? (fun x => x.id == sid) with
    | none => rfl
    | some r => simpa using mark_notified_noop db sid hall

/-- C1 witness: the amended theorem applied to a concrete store holding a
single already-notified record. -/
theorem c1_witness :
    (trigger_notification true ⟨[⟨1, "alice", "t", "n", 0, true⟩], 2⟩ 1).1 =
      (⟨[⟨1, "alice", "t", "n", 0, true⟩], 2⟩ : Store) :=
  (c1_amended true ⟨[⟨1, "alice", "t", "n", 0, true⟩], 2⟩ 1).2.2 (by decide)

/- ===== C2: the three spec classification examples ===== -/

/-- C2 evaluation: the reminder example maps to add_schedule and the chat
example to chat as claimed, but the schedule question maps to
add_schedule, not show_schedule: the pattern "schedule" of rule 1 matches
first, and in fact no input at all can produce show_schedule. -/
theorem c2_eval :
    parse_intent_simple (some "remind me to call mom tomorrow 5pm") = Intent.add_schedule
  ∧ parse_intent_simple (some "what\x27s my schedule") = Intent.add_schedule
  ∧ parse_intent_simple (some "how are you") = Intent.chat
  ∧ ∀ t : Option String, (parse_intent_simple t == Intent.show_schedule) = false :=
  ⟨by decide, by decide, by decide, show_schedule_unreachable⟩

/- ===== C3: classifier versus the spec rule table ===== -/

/-- C3: parse_intent_simple is exactly the first-match-wins,
case-insensitive substring classification over the fixed ordered rule
set of the spec, for every input text. -/
theorem c3_refinement (t : String) : parse_intent_simple (some t) = classify_spec t := by
  unfold parse_intent_simple classify_spec intentRules
  cases h1 : pyIn "remind me" (pyLower t) <;>
    cases h2 : pyIn "schedule" (pyLower t) <;>
    cases h3 : pyIn "add" (pyLower t) <;>
    cases h4 : pyIn "show schedule" (pyLower t) <;>
    cases h5 : pyIn "what\x27s my schedule" (pyLower t) <;>
    cases h6 : pyIn "my schedule" (pyLower t) <;>
    simp [List.find?, h1, h2, h3, h4, h5, h6]

/- ===== C5: create / mark_delivered / list_due_undelivered ===== -/

theorem poll_contains (db : Store) (now : Int) (i : Nat) :
    (poll_pending_schedules db now).contains i =
      db.rows.any (fun r => r.id == i && decide (r.when_ts ≤ now) && !r.notified) := by
  rw [Bool.eq_iff_iff]
  simp only [poll_pending_schedules, List.contains_iff_exists_mem_beq, List.any_eq_true,
    List.mem_map, List.mem_filter, Bool.and_eq_true, beq_iff_eq, decide_eq_true_eq,
    Bool.not_eq_true']
  constructor
  · rintro ⟨x, ⟨r, ⟨hmem, hts, hnot⟩, hid⟩, hxi⟩
    exact ⟨r, hmem, ⟨by rw [hid, hxi], hts⟩, hnot⟩
  · rintro ⟨r, hmem, ⟨hid, hts⟩, hnot⟩
    exact ⟨r.id, ⟨r, ⟨hmem, hts, hnot⟩, rfl⟩, hid.symm⟩

theorem poll_contains_new (db : Store) (u t n : String) (w : Int) :
    ((poll_pending_schedules (add_schedule db u t n w).1 w).contains
      (add_schedule db u t n w).2) = true := by
  rw [poll_contains]
  simp [add_schedule, List.any_eq_true]

theorem poll_not_contains_marked (db : Store) (sid : Nat) (now : Int) :
    ((poll_pending_schedules (mark_notified db sid) now).contains sid) = false := by
  rw [poll_contains, Bool.eq_false_iff]
  intro hc
  simp only [mark_notified, List.any_eq_true, List.mem_map, Bool.and_eq_true, beq_iff_eq,
    decide_eq_true_eq, Bool.not_eq_true'] at hc
  obtain ⟨r, ⟨x, hx, hfx⟩, ⟨hid, _⟩, hnot⟩ := hc
  by_cases hxid : x.id = sid
  · rw [← hfx] at hnot
    simp [hxid] at hnot
  · rw [← hfx] at hid
    simp [hxid] at hid

/-- C5: for every store state and valid create arguments, the fresh id is
in list_due_undelivered(when_ts) right after create; after any positive
number of mark_notified calls the id no longer appears; and in general
poll_pending_schedules returns exactly the ids of rows with
when_ts <= now_ts and notified = 0. -/
theorem c5_store :
    (∀ (db : Store) (u t n : String) (w : Int),
       ((poll_pending_schedules (add_schedule db u t n w).1 w).contains
         (add_schedule db u t n w).2) = true)
  ∧ (∀ (db : Store) (sid : Nat) (now : Int) (k : Nat),
       ((poll_pending_schedules (markTimes db sid (k + 1)) now).contains sid) = false)
  ∧ (∀ (db : Store) (now : Int) (i : Nat),
       (poll_pending_schedules db now).contains i =
         db.rows.any (fun r => r.id == i && decide (r.when_ts ≤ now) && !r.notified)) :=
  ⟨poll_contains_new,
   fun db sid now k => by
     rw [markTimes]
     exact poll_not_contains_marked (markTimes db sid k) sid now,
   poll_contains⟩

/- ===== C6: session deadline and silence handling ===== -/

theorem handle_show_all (db : Store) (user : String) (p : Act → Bool)
    (hnu : p Act.spokeNoUpcoming = true) (hh : p Act.spokeHeader = true)
    (hi : ∀ t ts, p (Act.spokeItem t ts) = true) :
    (handle_show db user).all p = true := by
  cases hu : get_user_upcoming db user 10 with
  | nil => simp [handle_show, hu, hnu]
  | cons a l =>
      simp only [handle_show, hu, List.isEmpty_cons, Bool.false_eq_true, if_false,
        List.all_cons, hh, Bool.true_and, List.all_eq_true, List.mem_map]
      rintro x ⟨q, _, rfl⟩
      exact hi _ _

/-- Every listen call of the main loop (the non-follow-up ones, where the
while guard is checked) starts strictly before the timeout elapses,
whatever the inputs, the parser, the store and the starting clock. -/
theorem sessLoop_main_listen (parse : String → Option Int) (timeout : Nat) (user : String) :
    ∀ (evs : List Ev) (c : Nat) (db : Store),
      ((sessLoop parse timeout user evs c db).1.all
        (fun a => match a with
          | Act.listenStart false t => decide (t < timeout)
          | _ => true)) = true := by
  intro evs c db
  induction evs, c, db using sessLoop.induct parse timeout user with
  | case1 c db h => simp [sessLoop, h]
  | case2 c db h => simp [sessLoop, h]
  | case3 e rest c db h he => simp [sessLoop, h, he]
  | case4 e rest c db h c1 hne hint ts hp p ih =>
      simp [sessLoop, h, hne, hint, hp, ih]
  | case5 e c db h hne hint hp =>
      simp [sessLoop, h, hne, hint, hp]
  | case6 e c db h c1 hne hint hp f rest2 c2 ts hpf p ih =>
      simp [sessLoop, h, hne, hint, hp, hpf, ih]
  | case7 e c db h c1 hne hint hp f rest2 c2 hpf ih =>
      simp [sessLoop, h, hne, hint, hp, hpf, ih]
  | case8 e rest c db h c1 hne hint ih =>
      have hs := handle_show_all db user
        (fun a => match a with
          | Act.listenStart false t => decide (t < timeout)
          | _ => true) rfl rfl (fun _ _ => rfl)
      simp [sessLoop, h, hne, hint, ih, hs]
  | case9 e rest c db h c1 hne hint ih =>
      simp [sessLoop, h, hne, hint, ih]
  | case10 e rest c db h => simp [sessLoop, h]

/-- C6 counterexample: with timeout 90, a first listen that returns after
100 seconds with an unparseable reminder request makes the session start
the slot-filling follow-up listen at elapsed time 100, after the deadline
has passed — the deadline guards only the main-loop listens. -/
theorem c6_counterexample :
    Act.listenStart true 100 ∈
      (conversation_session parseNone "alice" [⟨"remind me x", 100⟩, ⟨"y", 5⟩] store0).1
  ∧ 90 ≤ 100 := by
  refine ⟨?_, by decide⟩
  decide

/-- C6 amended: a session with timeout 90 never starts a main-loop listen
at or after elapsed time 90 (the deadline is checked before each
main-loop listen, measured from session start and never reset), and a
main-loop listen returning empty text ends the session immediately
without routing any intent; the slot-filling follow-up listen inside the
add_schedule branch is not deadline-checked. -/
theorem c6_amended :
    (∀ (parse : String → Option Int) (user : String) (evs : List Ev) (db : Store),
       ((conversation_session parse user evs db 90).1.all
         (fun a => match a with
           | Act.listenStart false t => decide (t < 90)
           | _ => true)) = true)
  ∧ (∀ (parse : String → Option Int) (timeout : Nat) (user : String) (e : Ev)
       (rest : List Ev) (c : Nat) (db : Store),
       e.text = "" → c < timeout →
       sessLoop parse timeout user (e :: rest) c db =
         ([Act.listenStart false c, Act.ended], db)) := by
  constructor
  · intro parse user evs db
    simp only [conversation_session, List.all_cons]
    rw [sessLoop_main_listen]
    rfl
  · intro parse timeout user e rest c db he hc
    simp [sessLoop, hc, he]

/-- C6 witness: the silence clause of the amended theorem at a concrete empty
utterance inside the deadline. -/
theorem c6_witness :
    sessLoop parseNone 90 "alice" [⟨"", 0⟩] 0 store0 =
      ([Act.listenStart false 0, Act.ended], store0) :=
  c6_amended.2 parseNone 90 "alice" ⟨"", 0⟩ [] 0 store0 rfl (by decide)

/- ===== C4: add_schedule slot filling ===== -/

/-- C4: on an add_schedule turn, if the original utterance parses, a
record is created at once with title the utterance verbatim and empty
notes, the scheduler is armed and a confirmation spoken; if it does not
parse, the session speaks a clarification and performs exactly one
follow-up listen and one re-parse — on success the record is created
(title still the original utterance, notes empty), on failure a failure
message is spoken and the store is handed on unchanged, with no record
created and no further retry before the next main-loop turn. -/
theorem c4_session_add (parse : String → Option Int) (timeout : Nat) (user : String)
    (e f : Ev) (rest2 : List Ev) (c : Nat) (db : Store)
    (hc : c < timeout) (hne : e.text ≠ "")
    (hint : parse_intent_simple (some e.text) = Intent.add_schedule) :
    (∀ ts : Int, parse e.text = some ts →
       sessLoop parse timeout user (e :: f :: rest2) c db =
         (Act.listenStart false c :: Act.parseAttempt e.text ::
            Act.created (add_schedule db user e.text "" ts).2 user e.text "" ts ::
            Act.armed (add_schedule db user e.text "" ts).2 ts ::
            Act.spokeConfirm e.text ts ::
            (sessLoop parse timeout user (f :: rest2) (c + e.dur)
              (add_schedule db user e.text "" ts).1).1,
          (sessLoop parse timeout user (f :: rest2) (c + e.dur)
            (add_schedule db user e.text "" ts).1).2))
  ∧ (parse e.text = none → ∀ ts : Int, parse f.text = some ts →
       sessLoop parse timeout user (e :: f :: rest2) c db =
         (Act.listenStart false c :: Act.parseAttempt e.text :: Act.spokeClarify ::
            Act.listenStart true (c + e.dur) :: Act.parseAttempt f.text ::
            Act.created (add_schedule db user e.text "" ts).2 user e.text "" ts ::
            Act.armed (add_schedule db user e.text "" ts).2 ts ::
            Act.spokeConfirm e.text ts ::
            (sessLoop parse timeout user rest2 (c + e.dur + f.dur)
              (add_schedule db user e.text "" ts).1).1,
          (sessLoop parse timeout user rest2 (c + e.dur + f.dur)
            (add_schedule db user e.text "" ts).1).2))
  ∧ (parse e.text = none → parse f.text = none →
       sessLoop parse timeout user (e :: f :: rest2) c db =
         (Act.listenStart false c :: Act.parseAttempt e.text :: Act.spokeClarify ::
            Act.listenStart true (c + e.dur) :: Act.parseAttempt f.text :: Act.spokeFail ::
            (sessLoop parse timeout user rest2 (c + e.dur + f.dur) db).1,
          (sessLoop parse timeout user rest2 (c + e.dur + f.dur) db).2)) := by
  refine ⟨?_, ?_, ?_⟩
  · intro ts hp
    conv_lhs => rw [sessLoop]
    simp [hc, hne, hint, hp]
  · intro hp ts hpf
    conv_lhs => rw [sessLoop]
    simp [hc, hne, hint, hp, hpf]
  · intro hp hpf
    conv_lhs => rw [sessLoop]
    simp [hc, hne, hint, hp, hpf]

/-- C4 witness: slot filling on a concrete run — "remind me to take
pills" has no parseable time, the follow-up "9am tomorrow" does, and the
record is created with the original utterance as title and empty notes. -/
theorem c4_witness :
    sessLoop parseDemo 90 "alice"
        [⟨"remind me to take pills", 1⟩, ⟨"9am tomorrow", 2⟩] 0 store0 =
      (Act.listenStart false 0 :: Act.parseAttempt "remind me to take pills" ::
         Act.spokeClarify :: Act.listenStart true (0 + 1) ::
         Act.parseAttempt "9am tomorrow" ::
         Act.created (add_schedule store0 "alice" "remind me to take pills" "" 900).2
           "alice" "remind me to take pills" "" 900 ::
         Act.armed (add_schedule store0 "alice" "remind me to take pills" "" 900).2 900 ::
         Act.spokeConfirm "remind me to take pills" 900 ::
         (sessLoop parseDemo 90 "alice" [] (0 + 1 + 2)
           (add_schedule store0 "alice" "remind me to take pills" "" 900).1).1,
       (sessLoop parseDemo 90 "alice" [] (0 + 1 + 2)
         (add_schedule store0 "alice" "remind me to take pills" "" 900).1).2) :=
  (c4_session_add parseDemo 90 "alice" ⟨"remind me to take pills", 1⟩ ⟨"9am tomorrow", 2⟩
    [] 0 store0 (by decide) (by decide) (by decide)).2.1 rfl 900 rfl

/- ===== C7: list_upcoming and show_schedule ===== -/

instance : IsTotal ScheduleRecord (fun a b => a.when_ts ≤ b.when_ts) :=
  ⟨fun a b => Int.le_total a.when_ts b.when_ts⟩

instance : IsTrans ScheduleRecord (fun a b => a.when_ts ≤ b.when_ts) :=
  ⟨fun _ _ _ h1 h2 => le_trans h1 h2⟩

/-- C7 counterexample: get_user_upcoming takes no reference to the
current time and applies no when_ts filter, so a record whose fire time
is the epoch (in the past of any present moment) is still returned for
its user; the claim requires only future records. -/
theorem c7_counterexample :
    get_user_upcoming ⟨[⟨1, "alice", "past title", "", 0, false⟩], 2⟩ "alice" =
      [("past title", "", 0)] := by
  decide

/-- C7 amended: get_user_upcoming returns the records of the user past and
future alike — at most limit of them (default 10), each tuple copied from
one of the rows of that user, ordered ascending by when_ts — and the
show_schedule branch speaks the no-upcoming message exactly when the
fetched list is empty, else the header followed by each item in order. -/
theorem c7_amended (db : Store) (u : String) (limit : Nat) :
    ((get_user_upcoming db u limit).length ≤ limit)
  ∧ ((get_user_upcoming db u limit).all
       (fun p => db.rows.any
         (fun r => r.user_id == u && r.title == p.1 && r.notes == p.2.1 &&
           r.when_ts == p.2.2)) = true)
  ∧ List.Sorted (fun p q : String × String × Int => p.2.2 ≤ q.2.2)
      (get_user_upcoming db u limit)
  ∧ (get_user_upcoming db u 10 = [] → handle_show db u = [Act.spokeNoUpcoming])
  ∧ (∀ r rs, get_user_upcoming db u 10 = r :: rs →
       handle_show db u =
         Act.spokeHeader :: (r :: rs).map (fun p => Act.spokeItem p.1 p.2.2)) := by
  refine ⟨List.length_take_le _ _, ?_, ?_, ?_, ?_⟩
  · rw [List.all_eq_true]
    intro p hp
    obtain ⟨r, hr, rfl⟩ := List.mem_map.mp (List.mem_of_mem_take hp)
    have hr2 := (List.perm_insertionSort
      (fun a b : ScheduleRecord => a.when_ts ≤ b.when_ts) _).subset hr
    obtain ⟨hmem, hu⟩ := List.mem_filter.mp hr2
    rw [List.any_eq_true]
    exact ⟨r, hmem, by simp [hu]⟩
  · have h1 := List.sorted_insertionSort
      (fun a b : ScheduleRecord => a.when_ts ≤ b.when_ts)
      (db.rows.filter (fun r => r.user_id == u))
    have h2 := List.Pairwise.map (R := fun a b : ScheduleRecord => a.when_ts ≤ b.when_ts)
      (S := fun p q : String × String × Int => p.2.2 ≤ q.2.2)
      (fun r => (r.title, r.notes, r.when_ts)) (fun _ _ hab => hab) h1
    exact List.Pairwise.sublist (List.take_sublist _ _) h2
  · intro h
    simp [handle_show, h]
  · intro r rs h
    simp [handle_show, h]

/-- C7 witness: the show_schedule clauses of the amended theorem at a concrete
empty store and a concrete one-record store. -/
theorem c7_witness :
    handle_show store0 "alice" = [Act.spokeNoUpcoming]
  ∧ handle_show ⟨[⟨1, "alice", "aT", "", 3, false⟩], 2⟩ "alice" =
      Act.spokeHeader :: [(("aT", "", (3 : Int)))].map (fun p => Act.spokeItem p.1 p.2.2) :=
  ⟨(c7_amended store0 "alice" 10).2.2.2.1 rfl,
   (c7_amended ⟨[⟨1, "alice", "aT", "", 3, false⟩], 2⟩ "alice" 10).2.2.2.2
     ("aT", "", 3) [] (by decide)⟩

/- ===== C8: mark_delivered idempotence ===== -/

/-- C8: mark_notified is idempotent — marking the same id twice leaves
the store in exactly the state of marking it once, for every store state
and id (and the second call is an ordinary update, not an error). -/
theorem c8_idempotent (db : Store) (sid : Nat) :
    mark_notified (mark_notified db sid) sid = mark_notified db sid :=
  congrArg (fun l => Store.mk l db.nextId) (mark_rows_idem sid db.rows)

/- ===== C9: unknown-face alert outcomes ===== -/

/-- C9 counterexample: the three spoken outcomes of on_unknown_face are
pairwise distinct, so two executions in which the owner alert did not
succeed (bot unconfigured versus telegram exception) speak different
texts — the speech is not one of two fixed outcomes determined by alert
success. -/
theorem c9_counterexample :
    (on_unknown_face true (Except.error "boom") == on_unknown_face false (Except.ok ())) = false
  ∧ (on_unknown_face true (Except.ok ()) == on_unknown_face false (Except.ok ())) = false
  ∧ (on_unknown_face true (Except.ok ()) == on_unknown_face true (Except.error "boom")) = false := by
  refine ⟨by decide, by decide, by decide⟩

/-- C9 amended: every exception raised by the telegram send is caught and
converted into a fixed error speech, never propagated (the handler is a
total function into speech); exactly one of three fixed outcomes is
spoken: the success speech when the alert returned true, the
could-not-notify speech when it returned false (bot unconfigured), and a
distinct error speech when it raised. -/
theorem c9_amended :
    (∀ (hb : Bool) (out : Except String Unit),
       ([alertSuccessSpeech, alertNotSentSpeech, alertErrorSpeech].contains
         (on_unknown_face hb out)) = true)
  ∧ (∀ e : String, on_unknown_face true (Except.error e) = alertErrorSpeech)
  ∧ on_unknown_face true (Except.ok ()) = alertSuccessSpeech
  ∧ (∀ out : Except String Unit, on_unknown_face false out = alertNotSentSpeech) := by
  refine ⟨?_, ?_, rfl, ?_⟩
  · intro hb out
    cases out <;> cases hb <;> rfl
  · intro e
    rfl
  · intro out
    cases out <;> rfl

/- ===== C10: classifier totality on None and empty input ===== -/

/-- C10: parse_intent_simple coerces a missing text to the empty string
and classifies both None and "" as chat without error. -/
theorem c10_total :
    parse_intent_simple none = Intent.chat ∧ parse_intent_simple (some "") = Intent.chat := by
  decide

end Assistant
